import Mathlib

/-!
Shallow embedding of the `stats` crate (`src/src/lib.rs`): four statistics
functions `mean`, `stddev`, `median`, `l2` over a slice of `f64`.

Modelling decisions:

* `f64` values are modelled as rationals (`ℚ`): every finite `f64` is a
  rational number, arithmetic is modelled as exact (ideal) arithmetic, and
  NaN / infinities are out of scope per spec section 7 ("NaN or infinite
  values in input are out of scope for defined behavior").  Results that
  pass through `sqrt` live in `ℝ`.
* A Rust slice `&[f64]` is a `List ℚ`.
* Rust `Option<f64>` is `Option ℚ` (or `Option ℝ` after a square root).
* A Rust panic (an out-of-bounds index `nums[i]`, or `Option::unwrap` on
  `None`) is modelled by an outer `Option` layer: a function that can
  panic returns `Option (Option _)`, where the outer `none` means the call
  diverges with a panic and `some r` means it returns `r` normally.
  `f64::partial_cmp(..).unwrap()` inside `median`'s sort cannot fail in
  this model since `ℚ` has no NaN, so the sort itself is total.
-/

namespace Stats

/-- Embeds `nums.iter().sum::<f64>()` (line 27): a left fold of `+` over the
slice starting from `0.0`. -/
def listSum (nums : List ℚ) : ℚ :=
  nums.foldl (· + ·) 0

/-- Embeds `mean` (lib.rs lines 26-43).  `sum` is the iterator sum, `counter`
is computed by the counting loop (so it equals the length), and the final
`match` on `result = if sum == 0.0 {0} else {1}` is the conditional: on
`sum == 0.0` return `Some(0.0)`, otherwise `Some(sum / counter)`. -/
def mean (nums : List ℚ) : Option ℚ :=
  let sum : ℚ := listSum nums
  let counter : ℚ := (nums.length : ℚ)
  if sum = 0 then some 0 else some (sum / counter)

/-- Embeds the accumulation loop of `stddev` (lib.rs lines 67-70):
`for j in nums { sum += (j - meanvalue.unwrap()).powf(2.0); }`.
The `meanvalue.unwrap()` happens inside the loop body, so a `none`
mean panics (outer `none`) exactly when the loop body runs at least once. -/
def devSum (meanvalue : Option ℚ) (acc : ℚ) : List ℚ → Option ℚ
  | [] => some acc
  | j :: js =>
    match meanvalue with
    | none => none
    | some m => devSum meanvalue (acc + (j - m) ^ 2) js

/-- Embeds `stddev` (lib.rs lines 58-80).  `meanvalue = mean(nums)`; `count`
is computed by the counting loop; the squared-deviation loop is `devSum`
(outer `none` = the `unwrap` panicked); then `sum = (sum / count).sqrt()` and
the final `match` on `if count == 0.0 {0} else {1}` returns `None` for an
empty slice and `Some(sum)` otherwise.  (For the empty slice Rust computes
`sqrt(0.0 / 0.0) = NaN` and then discards it; here `0 / 0 = 0` is likewise
discarded, so the divergence is unobservable.) -/
noncomputable def stddev (nums : List ℚ) : Option (Option ℝ) :=
  let meanvalue : Option ℚ := mean nums
  let count : ℚ := (nums.length : ℚ)
  match devSum meanvalue 0 nums with
  | none => none
  | some s =>
    let sum : ℝ := Real.sqrt ((s / count : ℚ) : ℝ)
    if count = 0 then some none else some (some sum)

/-- Embeds lines 98-100 of `median`: `let mut nums = nums.to_owned();
nums.sort_by(|a, b| a.partial_cmp(b).unwrap());` — an ascending stable sort
of a private copy.  On `ℚ` (a linear order, no NaN) `partial_cmp` never
returns `None`, and every ascending sort of a list over a linear order
produces the same list, so insertion sort is observationally identical to
Rust's stable driftsort. -/
def sortedCopy (nums : List ℚ) : List ℚ :=
  List.insertionSort (· ≤ ·) nums

/-- Embeds the branch-and-index part of `median` (lib.rs lines 102-123),
applied to the sorted copy.  `length0`/`index0` are the initial values of the
mutable variables `length` and `index` (both start as `sorted.len()`); the
`if` ladder reassigns them; the final `match length` returns:
`0 => None`; `1 => Some(nums[length])` — note the source indexes with the
variable `length` (equal to `1` in this arm), not with `index`;
`2 => Some((nums[index] + nums[index-1]) / 2.0)`.  An out-of-bounds index is
a panic, i.e. the outer `none`. -/
def medianOfSorted (sorted : List ℚ) : Option (Option ℚ) :=
  let length0 : ℕ := sorted.length
  let index0 : ℕ := length0
  let p : ℕ × ℕ :=
    if length0 ≠ 0 then
      if index0 % 2 ≠ 0 then ((index0 - 1) / 2, 1)
      else (index0 / 2, 2)
    else (index0, length0)
  let index : ℕ := p.1
  let length : ℕ := p.2
  match length with
  | 0 => some none
  | 1 =>
    match sorted.get? length with
    | some v => some (some v)
    | none => none
  | 2 =>
    match sorted.get? index, sorted.get? (index - 1) with
    | some a, some b => some (some ((a + b) / 2))
    | _, _ => none
  | _ => some none

/-- Embeds `median` (lib.rs lines 96-124): sort a private copy, then select. -/
def median (nums : List ℚ) : Option (Option ℚ) :=
  medianOfSorted (sortedCopy nums)

/-- Modelled from the spec: the body of `l2` in `src/src/lib.rs` (line 140) is
the `unimplemented` placeholder — the computational behavior "was never
completed in the source and must be implemented fresh per this contract"
(spec section 4.4).  Per that contract: for empty input return `Some(0.0)`,
otherwise return `Some(sqrt(sum(x_i^2 for x_i in xs)))`. -/
noncomputable def l2 (nums : List ℚ) : Option ℝ :=
  if nums = [] then some 0
  else some (Real.sqrt (((nums.map fun x => x ^ 2).sum : ℚ) : ℝ))

/-- Call-level embedding of `mean`: the pair is (return value, the caller's
sequence after the call).  `mean` takes `&[f64]` and only reads it. -/
def meanCall (caller : List ℚ) : Option ℚ × List ℚ :=
  (mean caller, caller)

/-- Call-level embedding of `stddev`: (return value, caller's sequence after
the call).  `stddev` takes `&[f64]` and only reads it. -/
noncomputable def stddevCall (caller : List ℚ) : Option (Option ℝ) × List ℚ :=
  (stddev caller, caller)

/-- Call-level embedding of `median`: `nums.to_owned()` copies the caller's
slice into a fresh `owned` vector, the sort mutates `owned` only, and the
caller's sequence is returned unchanged alongside the result. -/
def medianCall (caller : List ℚ) : Option (Option ℚ) × List ℚ :=
  let owned : List ℚ := caller
  let ownedSorted : List ℚ := List.insertionSort (· ≤ ·) owned
  (medianOfSorted ownedSorted, caller)

/-- Call-level embedding of `l2` (spec-modelled body): (return value,
caller's sequence after the call). -/
noncomputable def l2Call (caller : List ℚ) : Option ℝ × List ℚ :=
  (l2 caller, caller)

/-! ### Supporting lemmas -/

theorem foldl_add_eq (l : List ℚ) : ∀ a : ℚ, l.foldl (· + ·) a = a + l.sum := by
  induction l with
  | nil => intro a; simp
  | cons x xs ih =>
    intro a
    simp [List.foldl_cons, ih, List.sum_cons]
    ring

theorem listSum_eq (l : List ℚ) : listSum l = l.sum := by
  simp [listSum, foldl_add_eq]

theorem mean_empty : mean [] = some 0 := rfl

theorem mean_eq (xs : List ℚ) :
    mean xs = some (xs.sum / (xs.length : ℚ)) := by
  unfold mean
  rw [listSum_eq]
  by_cases hs : xs.sum = 0
  · rw [if_pos hs, hs, zero_div]
  · rw [if_neg hs]

theorem mean_isSome (xs : List ℚ) : (mean xs).isSome = true := by
  unfold mean
  by_cases hs : listSum xs = 0 <;> simp [hs]

theorem devSum_some (m : ℚ) : ∀ (l : List ℚ) (acc : ℚ),
    devSum (some m) acc l = some (acc + (l.map fun j => (j - m) ^ 2).sum) := by
  intro l
  induction l with
  | nil => intro acc; simp [devSum]
  | cons x xs ih =>
    intro acc
    simp [devSum, ih, List.sum_cons]
    ring

theorem stddev_empty : stddev [] = some none := by
  simp [stddev, mean_empty, devSum]

theorem stddev_nonempty (xs : List ℚ) (h : xs ≠ []) :
    stddev xs = some (some (Real.sqrt
      ((((xs.map fun x => (x - xs.sum / (xs.length : ℚ)) ^ 2).sum
        / (xs.length : ℚ)) : ℚ) : ℝ))) := by
  have hlen : (xs.length : ℚ) ≠ 0 :=
    Nat.cast_ne_zero.mpr fun h0 => h (List.length_eq_zero.mp h0)
  simp only [stddev, mean_eq xs, devSum_some, zero_add, if_neg hlen]

theorem stddev_never_panics (xs : List ℚ) : stddev xs ≠ none := by
  rcases hm : mean xs with _ | m
  · exact absurd (congrArg Option.isSome hm) (by simp [mean_isSome xs])
  · simp only [stddev, hm, devSum_some, zero_add]
    by_cases hc : (xs.length : ℚ) = 0 <;> simp [hc]

theorem sortedCopy_perm (nums : List ℚ) : (sortedCopy nums).Perm nums :=
  List.perm_insertionSort _ nums

theorem sortedCopy_sorted (nums : List ℚ) :
    (sortedCopy nums).Sorted (· ≤ ·) :=
  List.sorted_insertionSort _ nums

theorem sortedCopy_length (nums : List ℚ) :
    (sortedCopy nums).length = nums.length :=
  List.length_insertionSort _ nums

theorem medianOfSorted_even (sorted : List ℚ) (n : ℕ) (hn : sorted.length = n)
    (h0 : n ≠ 0) (he : n % 2 = 0) (a b : ℚ)
    (ha : sorted.get? (n / 2) = some a)
    (hb : sorted.get? (n / 2 - 1) = some b) :
    medianOfSorted sorted = some (some ((a + b) / 2)) := by
  subst hn
  simp only [medianOfSorted, if_pos h0, if_neg (not_not_intro he), ha, hb]

/-! ### Claim theorems -/

/-- C1: the claim says that for every non-empty input of odd length `median`
returns the element at index `(count - 1) / 2` of the ascending-sorted copy.
The code does not: the odd-length `match` arm reads `Some(nums[length])`
where the variable `length` was just set to `1`, so it always returns the
element at index `1` of the sorted copy instead of the computed median
index, and for a one-element input `nums[1]` is out of bounds, a panic.
Evaluating the embedding: on `[1, 2, 3, 4, 5]` it returns `2` (the claim
requires the middle element `3`); on `[1]` it panics (outer `none`); on the
claim's three-element example it coincidentally returns the right value
since there index `1` is the middle. -/
theorem median_c1_code_bug :
    median [(1 : ℚ), 2, 3, 4, 5] = some (some 2) ∧
    median [(1 : ℚ)] = none ∧
    median [(1 : ℚ), 2, 3] = some (some 2) :=
  ⟨by decide, by decide, by decide⟩

/-- C2: `l2` (modelled from the spec, since the source body is the
`unimplemented` placeholder) returns `Some(0.0)` for empty input, and for
non-empty input `Some(sqrt(sum(x_i^2)))`; in particular
`l2([-3.0, 4.0]) == Some(5.0)`. -/
theorem l2_c2 :
    l2 ([] : List ℚ) = some 0 ∧
    (∀ xs : List ℚ, xs ≠ [] →
      l2 xs = some (Real.sqrt (((xs.map fun x => x ^ 2).sum : ℚ) : ℝ))) ∧
    l2 [(-3 : ℚ), 4] = some 5 := by
  refine ⟨by simp [l2], fun xs h => by simp [l2, h], ?_⟩
  have h5 : l2 [(-3 : ℚ), 4] =
      some (Real.sqrt ((((([(-3 : ℚ), 4]).map fun x => x ^ 2).sum : ℚ)) : ℝ)) := by
    simp [l2]
  rw [h5]
  norm_num
  rw [show (25 : ℝ) = 5 ^ 2 by norm_num, Real.sqrt_sq (by norm_num : (0 : ℝ) ≤ 5)]

/-- Witness for C2: instantiates the non-empty case at `[1, 2]`. -/
theorem l2_c2_witness :
    l2 [(1 : ℚ), 2] =
      some (Real.sqrt ((((([(1 : ℚ), 2]).map fun x => x ^ 2).sum : ℚ)) : ℝ)) :=
  l2_c2.2.1 [(1 : ℚ), 2] (by decide)

/-- C3: on the empty input none of the four functions panics — the outer
layer of `stddev`/`median` is `some`, and `mean`/`l2` are total — and each
returns its documented value: `mean([]) = Some(0.0)`,
`stddev([]) = None`, `median([]) = None`, `l2([]) = Some(0.0)`
(`l2` modelled from the spec, its source body being the `unimplemented`
placeholder). -/
theorem empty_input_c3 :
    mean ([] : List ℚ) = some 0 ∧
    stddev ([] : List ℚ) = some none ∧
    median ([] : List ℚ) = some none ∧
    l2 ([] : List ℚ) = some 0 :=
  ⟨rfl, stddev_empty, rfl, by simp [l2]⟩

/-- C4: `mean` returns `Some(0.0)` on the empty input, `Some(sum / count)`
on every non-empty input, and `Some(x)` on every singleton `[x]`.  The
source's `if sum == 0.0` branch returns `Some(0.0)`, which agrees with
`sum / count` whenever the sum is zero. -/
theorem mean_c4 :
    mean ([] : List ℚ) = some 0 ∧
    (∀ xs : List ℚ, xs ≠ [] → mean xs = some (xs.sum / (xs.length : ℚ))) ∧
    (∀ x : ℚ, mean [x] = some x) := by
  refine ⟨rfl, fun xs _ => mean_eq xs, fun x => ?_⟩
  rw [mean_eq]
  simp

/-- Witness for C4: the non-empty case at `[3, 5]` gives `mean = Some(4)`. -/
theorem mean_c4_witness : mean [(3 : ℚ), 5] = some 4 := by
  have h := mean_c4.2.1 [(3 : ℚ), 5] (by decide)
  norm_num [List.sum_cons, List.sum_nil] at h
  exact h

/-- C5: `stddev` returns `None` on the empty input; on every non-empty input
it returns `Some(sqrt(sum((x_i - m)^2) / count))` with `m` the arithmetic
mean of the input (population standard deviation); singletons and constant
(all-equal) inputs give `Some(0.0)`. -/
theorem stddev_c5 :
    stddev ([] : List ℚ) = some none ∧
    (∀ xs : List ℚ, xs ≠ [] → stddev xs = some (some (Real.sqrt
      ((((xs.map fun x => (x - xs.sum / (xs.length : ℚ)) ^ 2).sum
        / (xs.length : ℚ)) : ℚ) : ℝ)))) ∧
    (∀ x : ℚ, stddev [x] = some (some 0)) ∧
    (∀ (n : ℕ) (c : ℚ), n ≠ 0 →
      stddev (List.replicate n c) = some (some 0)) := by
  refine ⟨stddev_empty, fun xs h => stddev_nonempty xs h, fun x => ?_, ?_⟩
  · rw [stddev_nonempty [x] (by simp)]
    norm_num
  · intro n c hn
    have hne : List.replicate n c ≠ [] := by
      intro he
      exact hn (by simpa using congrArg List.length he)
    rw [stddev_nonempty _ hne]
    have hc : (n : ℚ) ≠ 0 := Nat.cast_ne_zero.mpr hn
    have hm : (List.replicate n c).sum / ((List.replicate n c).length : ℚ) = c := by
      simp [List.sum_replicate, nsmul_eq_mul]
      field_simp
    simp only [hm, sub_self]
    norm_num

/-- Witness for C5: the all-equal case at `n = 2`, `c = 7`. -/
theorem stddev_c5_witness : stddev (List.replicate 2 (7 : ℚ)) = some (some 0) :=
  stddev_c5.2.2.2 2 7 (by decide)

/-- C6: `median` returns `None` on the empty input; on every non-empty input
of even length it returns `Some` of the average of the two elements at
indices `count / 2` and `count / 2 - 1` of an ascending-sorted copy of the
input (a sorted permutation of it); in particular
`median([0.0, 0.5, -1.0, 1.0]) == Some(0.25)`. -/
theorem median_c6 :
    median ([] : List ℚ) = some none ∧
    (∀ xs : List ℚ, xs ≠ [] → xs.length % 2 = 0 →
      ∃ ys : List ℚ, ys.Perm xs ∧ ys.Sorted (· ≤ ·) ∧
        ∃ (h1 : xs.length / 2 < ys.length) (h2 : xs.length / 2 - 1 < ys.length),
          median xs = some (some ((ys.get ⟨xs.length / 2, h1⟩ +
            ys.get ⟨xs.length / 2 - 1, h2⟩) / 2))) ∧
    median [(0 : ℚ), 1 / 2, -1, 1] = some (some (1 / 4)) := by
  refine ⟨rfl, fun xs hne he => ?_,
    by norm_num [median, medianOfSorted, sortedCopy, List.insertionSort,
      List.orderedInsert]⟩
  have hlen : (sortedCopy xs).length = xs.length := sortedCopy_length xs
  have hpos : 0 < xs.length := List.length_pos.mpr hne
  have h1 : xs.length / 2 < (sortedCopy xs).length := by
    rw [hlen]
    exact Nat.div_lt_self hpos (by norm_num)
  have h2 : xs.length / 2 - 1 < (sortedCopy xs).length :=
    lt_of_le_of_lt (Nat.sub_le _ _) h1
  refine ⟨sortedCopy xs, sortedCopy_perm xs, sortedCopy_sorted xs, h1, h2, ?_⟩
  exact medianOfSorted_even (sortedCopy xs) xs.length hlen
    (Nat.pos_iff_ne_zero.mp hpos) he _ _
    (List.get?_eq_get h1) (List.get?_eq_get h2)

/-- Witness for C6: instantiates the even case at `[1, 2]`. -/
theorem median_c6_witness :
    ∃ ys : List ℚ, ys.Perm [(1 : ℚ), 2] ∧ ys.Sorted (· ≤ ·) ∧
      ∃ (h1 : ([(1 : ℚ), 2] : List ℚ).length / 2 < ys.length)
        (h2 : ([(1 : ℚ), 2] : List ℚ).length / 2 - 1 < ys.length),
        median [(1 : ℚ), 2] = some (some
          ((ys.get ⟨([(1 : ℚ), 2] : List ℚ).length / 2, h1⟩ +
            ys.get ⟨([(1 : ℚ), 2] : List ℚ).length / 2 - 1, h2⟩) / 2)) :=
  median_c6.2.1 [(1 : ℚ), 2] (by decide) (by decide)

/-- C7: no function mutates the caller's sequence.  In the call-level
embedding each call returns the caller's sequence unchanged — `mean`,
`stddev` and `l2` only read their borrowed slice, and `median` sorts a
private copy (`to_owned`), whose result also agrees with `median`. -/
theorem no_mutation_c7 (xs : List ℚ) :
    (meanCall xs).2 = xs ∧ (stddevCall xs).2 = xs ∧
    (medianCall xs).2 = xs ∧ (l2Call xs).2 = xs ∧
    (medianCall xs).1 = median xs :=
  ⟨rfl, rfl, rfl, rfl, rfl⟩

/-- C8: `stddev` is invariant under permutation of its input: the length,
the sum, and the multiset of squared deviations are permutation invariants,
so the whole computation is. -/
theorem stddev_perm_c8 (xs ys : List ℚ) (h : xs.Perm ys) :
    stddev xs = stddev ys := by
  rcases eq_or_ne xs [] with rfl | hne
  · rw [List.Perm.eq_nil h.symm]
  · have hne2 : ys ≠ [] := fun he => hne (List.Perm.eq_nil (he ▸ h))
    rw [stddev_nonempty xs hne, stddev_nonempty ys hne2]
    have hlen : xs.length = ys.length := h.length_eq
    have hm : xs.sum / (xs.length : ℚ) = ys.sum / (ys.length : ℚ) := by
      rw [h.sum_eq, hlen]
    have hdev : (xs.map fun x => (x - xs.sum / (xs.length : ℚ)) ^ 2).sum =
        (ys.map fun x => (x - ys.sum / (ys.length : ℚ)) ^ 2).sum := by
      simp only [hm]
      exact (h.map _).sum_eq
    rw [hdev, hlen]

/-- Witness for C8: `[1, 2]` is a permutation of `[2, 1]`. -/
theorem stddev_perm_c8_witness : stddev [(1 : ℚ), 2] = stddev [(2 : ℚ), 1] :=
  stddev_perm_c8 [(1 : ℚ), 2] [(2 : ℚ), 1] (by decide)

/-- C9: on every non-empty input `stddev` returns a defined value (no panic,
not `None`) and that value is nonnegative, being a square root. -/
theorem stddev_nonneg_c9 (xs : List ℚ) (h : xs ≠ []) :
    ∃ v : ℝ, stddev xs = some (some v) ∧ 0 ≤ v :=
  ⟨_, stddev_nonempty xs h, Real.sqrt_nonneg _⟩

/-- Witness for C9: instantiated at `[1, 2]`. -/
theorem stddev_nonneg_c9_witness :
    ∃ v : ℝ, stddev [(1 : ℚ), 2] = some (some v) ∧ 0 ≤ v :=
  stddev_nonneg_c9 [(1 : ℚ), 2] (by decide)

/-- C10: `mean` returns `Some` on every input, including the empty one, so
the `meanvalue.unwrap()` inside `stddev`'s loop never fails: `stddev` never
panics on any input (its outer `Option` layer, which models a panic by
`none`, is always `some`). -/
theorem mean_unwrap_safe_c10 (xs : List ℚ) :
    (mean xs).isSome = true ∧ stddev xs ≠ none :=
  ⟨mean_isSome xs, stddev_never_panics xs⟩

end Stats
